import Mathlib

/-!
Verification of the msp430-asm decoder core.

The definitions below are a shallow embedding of the repository's Rust
sources: bytes are `Fin 256`, byte buffers are `List Byte`, machine
integers are `Nat`/`Int` with explicit 16-bit conversions, and fallible
code returns `Except`.  Each definition names the source item it embeds.
-/

namespace MSP430

/-- A single byte of the input buffer (Rust `u8`). -/
abbrev Byte := Fin 256

/-- Little-endian 16-bit load, `u16::from_le_bytes([b0, b1])`. -/
def u16le (b0 b1 : Byte) : Nat := b0.val + 256 * b1.val

/-- The Rust cast `v as i16` applied to a `u16` value `v < 65536`:
two's-complement reinterpretation of the 16-bit pattern. -/
def u16ToI16 (v : Nat) : Int := if v < 32768 then (v : Int) else (v : Int) - 65536

/-- Operand model from `src/src/operand.rs` (enum `Operand`).  The payloads
are registers (`u8` as `Nat`), signed 16-bit values (`i16` as `Int`),
unsigned 16-bit values (`u16` as `Nat`) and the constant-generator value
(`i8` as `Int`). -/
inductive Operand where
  | RegisterDirect (r : Nat)
  | Indexed (r : Nat) (index : Int)
  | RegisterIndirect (r : Nat)
  | RegisterIndirectAutoIncrement (r : Nat)
  | Symbolic (i : Int)
  | Immediate (u : Nat)
  | Absolute (u : Nat)
  | Constant (i : Int)
deriving DecidableEq, Repr

/-- `Operand::size` from `src/src/operand.rs` lines 50-61. -/
def Operand.size : Operand → Nat
  | .RegisterDirect _ => 0
  | .Indexed _ _ => 2
  | .RegisterIndirect _ => 0
  | .RegisterIndirectAutoIncrement _ => 0
  | .Symbolic _ => 2
  | .Immediate _ => 2
  | .Absolute _ => 2
  | .Constant _ => 0

/-- `DecodeError` from `src/src/decode_error.rs`.  The payloads of
`InvalidSource` and `InvalidDestination` are `(addressing bits, register)`
pairs as in the source. -/
inductive DecodeError where
  | MissingSource
  | MissingDestination
  | InvalidSource (p : Nat × Nat)
  | InvalidDestination (p : Nat × Nat)
  | MissingInstruction
  | InvalidOpcode (op : Nat)
  | InvalidJumpCondition (c : Nat)
deriving DecidableEq, Repr

/-- `parse_source` from `src/src/operand.rs` lines 162-223.  The nested
`match` on `source` and the register range patterns (`0..=2 | 4..=15`
and the like) are rendered as an equivalent decision chain; the
`data.len() < 2` guard before `split_at` becomes a list pattern match. -/
def parse_source (register : Nat) (source : Nat) (data : List Byte) :
    Except DecodeError (Operand × List Byte) :=
  match source with
  | 0 =>
    if register = 3 then .ok (.Constant 0, data)
    else if register ≤ 15 then .ok (.RegisterDirect register, data)
    else .error (.InvalidSource (source, register))
  | 1 =>
    if register = 0 then
      match data with
      | b0 :: b1 :: remaining_data => .ok (.Symbolic (u16ToI16 (u16le b0 b1)), remaining_data)
      | _ => .error .MissingSource
    else if register = 2 then
      match data with
      | b0 :: b1 :: remaining_data => .ok (.Absolute (u16le b0 b1), remaining_data)
      | _ => .error .MissingSource
    else if register = 3 then .ok (.Constant 1, data)
    else if register ≤ 15 then
      match data with
      | b0 :: b1 :: remaining_data =>
        .ok (.Indexed register (u16ToI16 (u16le b0 b1)), remaining_data)
      | _ => .error .MissingSource
    else .error (.InvalidSource (source, register))
  | 2 =>
    if register = 2 then .ok (.Constant 4, data)
    else if register = 3 then .ok (.Constant 2, data)
    else if register ≤ 15 then .ok (.RegisterIndirect register, data)
    else .error (.InvalidSource (source, register))
  | 3 =>
    if register = 0 then
      match data with
      | b0 :: b1 :: remaining_data => .ok (.Immediate (u16le b0 b1), remaining_data)
      | _ => .error .MissingSource
    else if register = 2 then .ok (.Constant 8, data)
    else if register = 3 then .ok (.Constant (-1), data)
    else if register ≤ 15 then .ok (.RegisterIndirectAutoIncrement register, data)
    else .error (.InvalidSource (source, register))
  | _ => .error (.InvalidSource (source, register))

/-- `parse_destination` from `src/src/operand.rs` lines 229-249.  The AD
field is the `source` argument; the `data.len() < 2` guard becomes a list
pattern match, after which the register dispatch reads the already loaded
little-endian word. -/
def parse_destination (register : Nat) (source : Nat) (data : List Byte) :
    Except DecodeError Operand :=
  match source with
  | 0 => .ok (.RegisterDirect register)
  | 1 =>
    match data with
    | b0 :: b1 :: _ =>
      let raw_operand := u16le b0 b1
      if register = 0 then .ok (.Symbolic (u16ToI16 raw_operand))
      else if register = 2 then .ok (.Absolute raw_operand)
      else if register ≤ 15 then .ok (.Indexed register (u16ToI16 raw_operand))
      else .error (.InvalidDestination (source, register))
    | _ => .error .MissingDestination
  | _ => .error (.InvalidDestination (source, register))

/-- Reads one 16-bit little-endian extension word, the `W` column of the
section 4.1 table: two bytes are consumed as value `v`, fewer than two
remaining bytes yield `MissingSource`. -/
def readExtensionWord (data : List Byte) (k : Nat → Operand) :
    Except DecodeError (Operand × List Byte) :=
  match data with
  | b0 :: b1 :: rest => .ok (k (u16le b0 b1), rest)
  | _ => .error .MissingSource

/-- The section 4.1 source-operand table transliterated row by row from the
spec, keyed by `(as_bits, register)`.  This is the specification side of
claim C1; `parse_source` above is the code side.  The rows `0..2 or 4..15`
and the like are the final else branches, faithful for `register < 16`. -/
def source_operand_table (register as_bits : Nat) (data : List Byte) :
    Except DecodeError (Operand × List Byte) :=
  if as_bits = 0 ∧ register = 3 then .ok (.Constant 0, data)
  else if as_bits = 0 then .ok (.RegisterDirect register, data)
  else if as_bits = 1 ∧ register = 0 then readExtensionWord data (fun v => .Symbolic (u16ToI16 v))
  else if as_bits = 1 ∧ register = 2 then readExtensionWord data (fun v => .Absolute v)
  else if as_bits = 1 ∧ register = 3 then .ok (.Constant 1, data)
  else if as_bits = 1 then readExtensionWord data (fun v => .Indexed register (u16ToI16 v))
  else if as_bits = 2 ∧ register = 2 then .ok (.Constant 4, data)
  else if as_bits = 2 ∧ register = 3 then .ok (.Constant 2, data)
  else if as_bits = 2 then .ok (.RegisterIndirect register, data)
  else if as_bits = 3 ∧ register = 0 then readExtensionWord data (fun v => .Immediate v)
  else if as_bits = 3 ∧ register = 2 then .ok (.Constant 8, data)
  else if as_bits = 3 ∧ register = 3 then .ok (.Constant (-1), data)
  else .ok (.RegisterIndirectAutoIncrement register, data)

/-- `OperandWidth` from `src/src/operand.rs` lines 142-146. -/
inductive OperandWidth where
  | Byte
  | Word
deriving DecidableEq, Repr

/-- `impl From<u8> for OperandWidth` (operand.rs lines 148-156): 0 maps to
Word, 1 to Byte; the argument is a single already-masked bit. -/
def OperandWidth.ofBit (val : Nat) : OperandWidth :=
  if val = 0 then .Word else .Byte

/-- The record generated by the `two_operand!` macro in
`src/src/two_operand.rs` lines 23-79.  Every one of the twelve mnemonics
(Mov, Add, Addc, Subc, Sub, Cmp, Dadd, Bit, Bic, Bis, Xor, And) expands to
this same record; the mnemonic is tracked by the `Instruction` constructor
that wraps the record. -/
structure TwoOperandInstr where
  source : Operand
  operand_width : OperandWidth
  destination : Operand
deriving DecidableEq, Repr

/-- `TwoOperand::size` generated by the `two_operand!` macro
(two_operand.rs lines 58-60). -/
def TwoOperandInstr.size (t : TwoOperandInstr) : Nat :=
  2 + t.source.size + t.destination.size

/-- The record generated by the `emulated!` macro in `src/src/emulate.rs`
lines 29-89.  Every alias stores the optional destination, the optional
operand width, and a copy of the original two-operand instruction. -/
structure EmulatedInstr where
  destination : Option Operand
  operand_width : Option OperandWidth
  original : TwoOperandInstr
deriving DecidableEq, Repr

/-- `Emulated::size` generated by the `emulated!` macro (emulate.rs lines
70-72): it defers to the stored original. -/
def EmulatedInstr.size (e : EmulatedInstr) : Nat := e.original.size

/-- `jxx_fix_offset` from `src/src/jxx.rs` lines 1-7.  Rust `!offset` on a
`u16` is `offset ^^^ 0xFFFF`; the `as i16` casts are `u16ToI16`. -/
def jxx_fix_offset (offset : Nat) : Int :=
  if 0 < offset &&& 0x200 then -1 * u16ToI16 (0x3FF &&& (offset ^^^ 0xFFFF))
  else u16ToI16 offset

/-- The instruction variants of `src/src/instruction.rs` (single-operand
records from `src/src/single_operand.rs`, jump records from
`src/src/jxx.rs`, two-operand records from `src/src/two_operand.rs`)
together with the twenty-four emulated aliases of `src/src/emulate.rs`,
which the enum revision under src does not yet list but which the
`Emulate` impls construct. -/
inductive Instruction where
  | Rrc (source : Operand) (operand_width : OperandWidth)
  | Swpb (source : Operand)
  | Rra (source : Operand) (operand_width : OperandWidth)
  | Sxt (source : Operand)
  | Push (source : Operand) (operand_width : OperandWidth)
  | Call (source : Operand)
  | Reti
  | Jnz (offset : Int)
  | Jz (offset : Int)
  | Jlo (offset : Int)
  | Jc (offset : Int)
  | Jn (offset : Int)
  | Jge (offset : Int)
  | Jl (offset : Int)
  | Jmp (offset : Int)
  | Mov (t : TwoOperandInstr)
  | Add (t : TwoOperandInstr)
  | Addc (t : TwoOperandInstr)
  | Subc (t : TwoOperandInstr)
  | Sub (t : TwoOperandInstr)
  | Cmp (t : TwoOperandInstr)
  | Dadd (t : TwoOperandInstr)
  | Bit (t : TwoOperandInstr)
  | Bic (t : TwoOperandInstr)
  | Bis (t : TwoOperandInstr)
  | Xor (t : TwoOperandInstr)
  | And (t : TwoOperandInstr)
  | Adc (e : EmulatedInstr)
  | Br (e : EmulatedInstr)
  | Clr (e : EmulatedInstr)
  | Clrc (e : EmulatedInstr)
  | Clrn (e : EmulatedInstr)
  | Clrz (e : EmulatedInstr)
  | Dadc (e : EmulatedInstr)
  | Dec (e : EmulatedInstr)
  | Decd (e : EmulatedInstr)
  | Dint (e : EmulatedInstr)
  | Eint (e : EmulatedInstr)
  | Inc (e : EmulatedInstr)
  | Incd (e : EmulatedInstr)
  | Inv (e : EmulatedInstr)
  | Nop (e : EmulatedInstr)
  | Pop (e : EmulatedInstr)
  | Ret (e : EmulatedInstr)
  | Rla (e : EmulatedInstr)
  | Rlc (e : EmulatedInstr)
  | Sbc (e : EmulatedInstr)
  | Setc (e : EmulatedInstr)
  | Setn (e : EmulatedInstr)
  | Setz (e : EmulatedInstr)
  | Tst (e : EmulatedInstr)
deriving Repr

/-- Encoded byte length of an instruction.  Single-operand variants use
`SingleOperand::len` (`src/src/single_operand.rs` lines 34-36 and 76-78):
2 plus the source extension; `Reti::len` is 2 (lines 116-118); two-operand
variants use `TwoOperand::size`; emulated variants use `Emulated::size`
(the original's size).  Conditional jumps occupy exactly the instruction
word, size 2, as the spec states (the jump records under src carry only
the offset). -/
def Instruction.size : Instruction → Nat
  | .Rrc s _ => 2 + s.size
  | .Swpb s => 2 + s.size
  | .Rra s _ => 2 + s.size
  | .Sxt s => 2 + s.size
  | .Push s _ => 2 + s.size
  | .Call s => 2 + s.size
  | .Reti => 2
  | .Jnz _ => 2
  | .Jz _ => 2
  | .Jlo _ => 2
  | .Jc _ => 2
  | .Jn _ => 2
  | .Jge _ => 2
  | .Jl _ => 2
  | .Jmp _ => 2
  | .Mov t => t.size
  | .Add t => t.size
  | .Addc t => t.size
  | .Subc t => t.size
  | .Sub t => t.size
  | .Cmp t => t.size
  | .Dadd t => t.size
  | .Bit t => t.size
  | .Bic t => t.size
  | .Bis t => t.size
  | .Xor t => t.size
  | .And t => t.size
  | .Adc e => e.size
  | .Br e => e.size
  | .Clr e => e.size
  | .Clrc e => e.size
  | .Clrn e => e.size
  | .Clrz e => e.size
  | .Dadc e => e.size
  | .Dec e => e.size
  | .Decd e => e.size
  | .Dint e => e.size
  | .Eint e => e.size
  | .Inc e => e.size
  | .Incd e => e.size
  | .Inv e => e.size
  | .Nop e => e.size
  | .Pop e => e.size
  | .Ret e => e.size
  | .Rla e => e.size
  | .Rlc e => e.size
  | .Sbc e => e.size
  | .Setc e => e.size
  | .Setn e => e.size
  | .Setz e => e.size
  | .Tst e => e.size

/-- The original two-operand instruction stored inside an emulated alias,
when the instruction is an alias. -/
def Instruction.emulatedOriginal : Instruction → Option TwoOperandInstr
  | .Adc e | .Br e | .Clr e | .Clrc e | .Clrn e | .Clrz e | .Dadc e
  | .Dec e | .Decd e | .Dint e | .Eint e | .Inc e | .Incd e | .Inv e
  | .Nop e | .Pop e | .Ret e | .Rla e | .Rlc e | .Sbc e | .Setc e
  | .Setn e | .Setz e | .Tst e => Option.some e.original
  | _ => Option.none

/-- The offset carried by a conditional-jump instruction, when the
instruction is a jump. -/
def Instruction.jumpOffset : Instruction → Option Int
  | .Jnz o | .Jz o | .Jlo o | .Jc o | .Jn o | .Jge o | .Jl o | .Jmp o =>
    Option.some o
  | _ => Option.none

/-- Bool test used by the `if let Operand::RegisterDirect(_)` pattern in
the Mov emulation (two_operand.rs line 90). -/
def Operand.isRegisterDirect : Operand → Bool
  | .RegisterDirect _ => true
  | _ => false

/-- `impl Emulate for Mov` from `src/src/two_operand.rs` lines 83-121:
the sequence of early-return checks, in source order. -/
def emulateMov (self : TwoOperandInstr) : Option Instruction :=
  if self.source = .Constant 0 ∧ self.destination = .RegisterDirect 3 then
    Option.some (.Nop ⟨Option.none, Option.none, self⟩)
  else if (self.source = .Constant 0 ∨ self.source = .Immediate 0) ∧
      self.destination.isRegisterDirect then
    Option.some (.Clr ⟨Option.some self.destination, Option.none, self⟩)
  else if self.source = .RegisterIndirectAutoIncrement 1 then
    if self.destination = .RegisterDirect 0 then
      Option.some (.Ret ⟨Option.none, Option.none, self⟩)
    else
      Option.some (.Pop ⟨Option.some self.destination, Option.some self.operand_width, self⟩)
  else if self.destination = .RegisterDirect 0 then
    Option.some (.Br ⟨Option.some self.source, Option.none, self⟩)
  else Option.none

/-- `impl Emulate for Add` (two_operand.rs lines 125-149). -/
def emulateAdd (self : TwoOperandInstr) : Option Instruction :=
  if self.source = .Constant 1 then
    Option.some (.Inc ⟨Option.some self.destination, Option.none, self⟩)
  else if self.source = .Constant 2 then
    Option.some (.Incd ⟨Option.some self.destination, Option.none, self⟩)
  else if self.source = self.destination then
    Option.some (.Rla ⟨Option.some self.destination, Option.some self.operand_width, self⟩)
  else Option.none

/-- `impl Emulate for Addc` (two_operand.rs lines 153-171). -/
def emulateAddc (self : TwoOperandInstr) : Option Instruction :=
  if self.source = .Constant 0 then
    Option.some (.Adc ⟨Option.some self.destination, Option.some self.operand_width, self⟩)
  else if self.source = self.destination then
    Option.some (.Rlc ⟨Option.some self.destination, Option.some self.operand_width, self⟩)
  else Option.none

/-- `impl Emulate for Subc` (two_operand.rs lines 175-187). -/
def emulateSubc (self : TwoOperandInstr) : Option Instruction :=
  if self.source = .Constant 0 then
    Option.some (.Sbc ⟨Option.some self.destination, Option.some self.operand_width, self⟩)
  else Option.none

/-- `impl Emulate for Sub` (two_operand.rs lines 191-209). -/
def emulateSub (self : TwoOperandInstr) : Option Instruction :=
  if self.source = .Constant 1 then
    Option.some (.Dec ⟨Option.some self.destination, Option.some self.operand_width, self⟩)
  else if self.source = .Constant 2 then
    Option.some (.Decd ⟨Option.some self.destination, Option.some self.operand_width, self⟩)
  else Option.none

/-- `impl Emulate for Cmp` (two_operand.rs lines 213-225). -/
def emulateCmp (self : TwoOperandInstr) : Option Instruction :=
  if self.source = .Constant 0 then
    Option.some (.Tst ⟨Option.some self.destination, Option.some self.operand_width, self⟩)
  else Option.none

/-- `impl Emulate for Dadd` (two_operand.rs lines 229-241). -/
def emulateDadd (self : TwoOperandInstr) : Option Instruction :=
  if self.source = .Constant 0 then
    Option.some (.Dadc ⟨Option.some self.destination, Option.some self.operand_width, self⟩)
  else Option.none

/-- `impl Emulate for Bic` (two_operand.rs lines 246-268). -/
def emulateBic (self : TwoOperandInstr) : Option Instruction :=
  if self.destination = .RegisterDirect 2 then
    if self.source = .Constant 1 then Option.some (.Clrc ⟨Option.none, Option.none, self⟩)
    else if self.source = .Constant 2 then Option.some (.Clrn ⟨Option.none, Option.none, self⟩)
    else if self.source = .Constant 4 then Option.some (.Clrz ⟨Option.none, Option.none, self⟩)
    else if self.source = .Constant 8 then Option.some (.Dint ⟨Option.none, Option.none, self⟩)
    else Option.none
  else Option.none

/-- `impl Emulate for Bis` (two_operand.rs lines 272-294). -/
def emulateBis (self : TwoOperandInstr) : Option Instruction :=
  if self.destination = .RegisterDirect 2 then
    if self.source = .Constant 1 then Option.some (.Setc ⟨Option.none, Option.none, self⟩)
    else if self.source = .Constant 2 then Option.some (.Setz ⟨Option.none, Option.none, self⟩)
    else if self.source = .Constant 4 then Option.some (.Setn ⟨Option.none, Option.none, self⟩)
    else if self.source = .Constant 8 then Option.some (.Eint ⟨Option.none, Option.none, self⟩)
    else Option.none
  else Option.none

/-- `impl Emulate for Xor` (two_operand.rs lines 298-310). -/
def emulateXor (self : TwoOperandInstr) : Option Instruction :=
  if self.source = .Constant (-1) then
    Option.some (.Inv ⟨Option.some self.destination, Option.some self.operand_width, self⟩)
  else Option.none

/-- The emulation recognizer over a two-operand opcode: dispatches to the
`Emulate` impl of the mnemonic.  Bit (opcode 11) and And (opcode 15) have
no `Emulate` impl in two_operand.rs, so they never produce an alias. -/
def emulateTwoOperand (opcode : Nat) (t : TwoOperandInstr) : Option Instruction :=
  match opcode with
  | 4 => emulateMov t
  | 5 => emulateAdd t
  | 6 => emulateAddc t
  | 7 => emulateSubc t
  | 8 => emulateSub t
  | 9 => emulateCmp t
  | 10 => emulateDadd t
  | 12 => emulateBic t
  | 13 => emulateBis t
  | 14 => emulateXor t
  | _ => Option.none

/-- Wraps the two-operand record with the constructor selected by the
four-bit opcode; opcodes 0 to 3 are treated as InvalidOpcode defensively. -/
def mkTwoOperand (opcode : Nat) (t : TwoOperandInstr) : Except DecodeError Instruction :=
  match opcode with
  | 4 => .ok (.Mov t)
  | 5 => .ok (.Add t)
  | 6 => .ok (.Addc t)
  | 7 => .ok (.Subc t)
  | 8 => .ok (.Sub t)
  | 9 => .ok (.Cmp t)
  | 10 => .ok (.Dadd t)
  | 11 => .ok (.Bit t)
  | 12 => .ok (.Bic t)
  | 13 => .ok (.Bis t)
  | 14 => .ok (.Xor t)
  | 15 => .ok (.And t)
  | o => .error (.InvalidOpcode o)

/-- Wraps a jump offset with the constructor selected by the three-bit
condition field: 0 Jnz, 1 Jz, 2 Jlo, 3 Jc, 4 Jn, 5 Jge, 6 Jl, 7 Jmp. -/
def mkJump (cond : Nat) (offset : Int) : Except DecodeError Instruction :=
  match cond with
  | 0 => .ok (.Jnz offset)
  | 1 => .ok (.Jz offset)
  | 2 => .ok (.Jlo offset)
  | 3 => .ok (.Jc offset)
  | 4 => .ok (.Jn offset)
  | 5 => .ok (.Jge offset)
  | 6 => .ok (.Jl offset)
  | 7 => .ok (.Jmp offset)
  | c => .error (.InvalidJumpCondition c)

/-- Modelled from the spec: the decoder entry point of section 4.2.  The
repository's current `decode(bytes) -> Result<Instruction, DecodeError>`
is not under src (src/src/lib.rs holds only an older Option-based decoder,
embedded separately below as `decodeLib`); this definition follows the
spec's steps bit-exactly, dispatching on the top three bits of the first
little-endian word and delegating to the source-derived `parse_source`,
`parse_destination`, size and emulation definitions. -/
def decode (data : List Byte) : Except DecodeError Instruction :=
  match data with
  | b0 :: b1 :: tail =>
    let w := u16le b0 b1
    if w &&& 0xE000 = 0 then
      let opcode := (w >>> 7) &&& 7
      let operand_width := OperandWidth.ofBit ((w >>> 6) &&& 1)
      let as_bits := (w >>> 4) &&& 3
      let register := w &&& 15
      if opcode = 6 then .ok .Reti
      else
        match parse_source register as_bits tail with
        | .error e => .error e
        | .ok (src, _) =>
          match opcode with
          | 0 => .ok (.Rrc src operand_width)
          | 1 => .ok (.Swpb src)
          | 2 => .ok (.Rra src operand_width)
          | 3 => .ok (.Sxt src)
          | 4 => .ok (.Push src operand_width)
          | 5 => .ok (.Call src)
          | o => .error (.InvalidOpcode o)
    else if w &&& 0xE000 = 0x2000 then
      mkJump ((w >>> 10) &&& 7) (jxx_fix_offset (w &&& 0x3FF))
    else
      let opcode := (w >>> 12) &&& 15
      let src_reg := (w >>> 8) &&& 15
      let ad_bit := (w >>> 7) &&& 1
      let operand_width := OperandWidth.ofBit ((w >>> 6) &&& 1)
      let as_bits := (w >>> 4) &&& 3
      let dst_reg := w &&& 15
      match parse_source src_reg as_bits tail with
      | .error e => .error e
      | .ok (src, tail2) =>
        match parse_destination dst_reg ad_bit tail2 with
        | .error e => .error e
        | .ok dst =>
          let t : TwoOperandInstr := ⟨src, operand_width, dst⟩
          match mkTwoOperand opcode t with
          | .error e => .error e
          | .ok inst => .ok ((emulateTwoOperand opcode t).getD inst)
  | _ => .error .MissingInstruction

/-- `AddressingMode` from `src/src/lib.rs` lines 9-20 (the older decoder's
operand model; note its Immediate payload is `i16`, modelled as `Int`). -/
inductive LibAddressingMode where
  | RegisterDirect (r : Nat)
  | Indexed (r : Nat) (i : Int)
  | RegisterIndirect (r : Nat)
  | IndirectAutoIncrement (r : Nat)
  | Symbolic (i : Int)
  | Immediate (i : Int)
  | Absolute (u : Nat)
  | Constant (i : Int)
deriving DecidableEq, Repr

/-- `SingleOperand` from `src/src/lib.rs` lines 22-27. -/
structure LibSingleOperand where
  opcode : Nat
  operand_width : Nat
  addressing_mode : Option LibAddressingMode
deriving DecidableEq, Repr

/-- `JmpCondition` from `src/src/lib.rs` lines 62-72. -/
inductive LibJmpCondition where
  | Jnz
  | Jz
  | Jlo
  | Jc
  | Jn
  | Jge
  | Jl
  | Jmp
deriving DecidableEq, Repr

/-- `JmpInstruction` from `src/src/lib.rs` lines 74-81. -/
structure LibJmpInstruction where
  condition : LibJmpCondition
  offset : Int
deriving DecidableEq, Repr

/-- `JmpInstruction::new` from `src/src/lib.rs` lines 84-99: the same
one's-complement fix as `jxx_fix_offset`. -/
def LibJmpInstruction.new (condition : LibJmpCondition) (offset : Nat) :
    LibJmpInstruction :=
  { condition := condition
    offset :=
      if 0 < offset &&& 0x200 then -1 * u16ToI16 (0x3FF &&& (offset ^^^ 0xFFFF))
      else u16ToI16 offset }

/-- `Instruction` from `src/src/lib.rs` lines 3-7. -/
inductive LibInstruction where
  | JmpInstruction (j : LibJmpInstruction)
  | SingleOperand (s : LibSingleOperand)
deriving DecidableEq, Repr

/-- `ones_complement` from `src/src/lib.rs` lines 252-258. -/
def ones_complement (val : Nat) : Int :=
  if 0 < 0x8000 &&& val then -1 * u16ToI16 (val ^^^ 0xFFFF)
  else u16ToI16 val

/-- Outcome of running the lib.rs decoder: the Rust function either
panics, returns `None`, or returns `Some(instruction)`.  Panics are first
class here because claim C2 is about their absence. -/
inductive LibResult where
  | panicked (msg : String)
  | none
  | some (inst : LibInstruction)
deriving DecidableEq, Repr

/-- The unchecked slice `data[k..k + 2]` of lib.rs: Rust panics with an
index error when the slice end exceeds the buffer, else the two bytes are
loaded little-endian. -/
def readWordAt (data : List Byte) (k : Nat) : Except String Nat :=
  if data.length < k + 2 then .error "index out of range"
  else .ok (u16le (data.getD k 0) (data.getD (k + 1) 0))

/-- The addressing-mode computation of `decode` in `src/src/lib.rs` lines
129-179, including its `panic!("invalid addressing mode")` and
`unreachable!()` arms, which surface as `Except.error`. -/
def libAddressingMode (register source : Nat) (data : List Byte) (addr : Nat) :
    Except String (Option LibAddressingMode) :=
  if register = 0 then
    if source = 0 then .ok Option.none
    else if source = 1 then
      (readWordAt data (addr + 2)).map fun w =>
        Option.some (.Symbolic (ones_complement w))
    else if source = 3 then
      (readWordAt data (addr + 2)).map fun w =>
        Option.some (.Immediate (ones_complement w))
    else .error "invalid addressing mode"
  else if register = 2 then
    if source = 1 then
      (readWordAt data (addr + 2)).map fun w => Option.some (.Absolute w)
    else if source = 2 then .ok (Option.some (.Constant 4))
    else if source = 3 then .ok (Option.some (.Constant 8))
    else .error "internal error: entered unreachable code"
  else if register = 3 then
    if source = 0 then .ok (Option.some (.Constant 0))
    else if source = 1 then .ok (Option.some (.Constant 1))
    else if source = 2 then .ok (Option.some (.Constant 2))
    else if source = 3 then .ok (Option.some (.Constant (-1)))
    else .error "internal error: entered unreachable code"
  else
    if source = 0 then .ok (Option.some (.RegisterDirect register))
    else if source = 1 then
      (readWordAt data (addr + 2)).map fun w =>
        Option.some (.Indexed register (ones_complement w))
    else if source = 2 then .ok (Option.some (.RegisterIndirect register))
    else if source = 3 then .ok (Option.some (.IndirectAutoIncrement register))
    else .error "invalid addressing mode"

/-- `decode` from `src/src/lib.rs` lines 110-248 (the older decoder).
The seven single-operand opcode arms all build the same record, rendered
as the opcode bound check; the two-operand fall-through returns none.
Panics reachable inside the addressing-mode computation are reported as
`LibResult.panicked`. -/
def decodeLib (data : List Byte) (addr : Nat) : LibResult :=
  if data.length < addr + 2 then .none
  else
    let first_word := u16le (data.getD addr 0) (data.getD (addr + 1) 0)
    let inst_type := first_word &&& 0xE000
    if inst_type = 0 then
      let opcode := (first_word &&& 0x0380) >>> 7
      let register := first_word &&& 0xF
      let source := (first_word &&& 0x30) >>> 4
      let operand_width := (first_word &&& 0x40) >>> 6
      match libAddressingMode register source data addr with
      | .error msg => .panicked msg
      | .ok addressing_mode =>
        if opcode ≤ 6 then
          .some (.SingleOperand ⟨opcode, operand_width, addressing_mode⟩)
        else .none
    else if inst_type = 0x2000 then
      let condition := (first_word &&& 0x1C00) >>> 10
      let offset := first_word &&& 0x3FF
      match condition with
      | 0 => .some (.JmpInstruction (LibJmpInstruction.new .Jnz offset))
      | 1 => .some (.JmpInstruction (LibJmpInstruction.new .Jz offset))
      | 2 => .some (.JmpInstruction (LibJmpInstruction.new .Jlo offset))
      | 3 => .some (.JmpInstruction (LibJmpInstruction.new .Jc offset))
      | 4 => .some (.JmpInstruction (LibJmpInstruction.new .Jn offset))
      | 5 => .some (.JmpInstruction (LibJmpInstruction.new .Jge offset))
      | 6 => .some (.JmpInstruction (LibJmpInstruction.new .Jl offset))
      | 7 => .some (.JmpInstruction (LibJmpInstruction.new .Jmp offset))
      | _ => .panicked "internal error: entered unreachable code"
    else .none

/-- Rust `{:#x}` formatting of an unsigned value: the prefix 0x followed
by the lowercase hex digits without leading zeros. -/
def natLowerHex (n : Nat) : String := "0x" ++ (Nat.toDigits 16 n).asString

/-- Rust `{:#x}` formatting of an `i16`: the 16-bit two's-complement bit
pattern rendered as unsigned hex. -/
def i16LowerHex (i : Int) : String := natLowerHex ((i % 65536).toNat)

/-- The Immediate arm of `impl Display for Operand`
(`src/src/operand.rs` lines 119-125): when bit 15 is clear the value
prints as `#` and unsigned hex, otherwise as `#-` followed by the `{:#x}`
rendering of the value reinterpreted as `i16`. -/
def displayImmediate (u : Nat) : String :=
  if u &&& 0x8000 = 0 then "#" ++ natLowerHex u
  else "#-" ++ i16LowerHex (u16ToI16 u)

/-- The Indexed arm of `impl Display for Operand` (`src/src/operand.rs`
lines 74-97): registers 1, 3 and 4 to 15 render; the remaining arm is
`unreachable!()` in the source and is modelled as `Option.none`. -/
def displayIndexed (r : Nat) (i : Int) : Option String :=
  if r = 1 then
    Option.some (if 0 ≤ i then i16LowerHex i ++ "(sp)"
      else "-" ++ i16LowerHex (-i) ++ "(sp)")
  else if r = 3 then
    Option.some (if 0 ≤ i then i16LowerHex i ++ "(cg)"
      else "-" ++ i16LowerHex (-i) ++ "(cg)")
  else if 4 ≤ r ∧ r ≤ 15 then
    Option.some (if 0 ≤ i then i16LowerHex i ++ "(r" ++ toString r ++ ")"
      else "-" ++ i16LowerHex (-i) ++ "(r" ++ toString r ++ ")")
  else Option.none

/-!  Theorems. -/

/-- Claim C1: for every register in 0..15, every as_bits in 0..3 and every
byte tail, parse_source returns exactly the operand of the section 4.1
source table (constant generator values, register modes, and the
extension-word rows reading one 16-bit little-endian word), together with
the tail minus the 0 or 2 consumed bytes, and returns MissingSource
exactly when a W row applies and fewer than 2 bytes remain. -/
theorem parse_source_matches_table :
    ∀ register < 16, ∀ as_bits < 4, ∀ data : List Byte,
      parse_source register as_bits data = source_operand_table register as_bits data := by
  intro register hr as_bits ha data
  interval_cases as_bits <;> interval_cases register <;> rfl

/-- Witness for claim C1 at a concrete input. -/
theorem parse_source_matches_table_witness :
    parse_source 0 1 [] = source_operand_table 0 1 [] ∧
    parse_source 9 1 [(0xfd : Byte), (0xff : Byte)] =
      source_operand_table 9 1 [(0xfd : Byte), (0xff : Byte)] :=
  ⟨parse_source_matches_table 0 (by decide) 1 (by decide) [],
   parse_source_matches_table 9 (by decide) 1 (by decide) _⟩

/-- Claim C7: parse_destination returns RegisterDirect(register) for AD=0
and every register 0..15 without reading the tail; for AD=1 it returns
MissingDestination exactly when the tail has fewer than 2 bytes, and
otherwise reads one 16-bit little-endian word v and returns Symbolic for
register 0, Absolute for register 2, and Indexed for the other registers;
InvalidDestination is returned for every shape outside the table (AD of 2
or more) and never for a shape inside it. -/
theorem parse_destination_table :
    (∀ register < 16, ∀ data : List Byte,
      parse_destination register 0 data = .ok (.RegisterDirect register)) ∧
    (∀ register < 16, ∀ data : List Byte,
      (parse_destination register 1 data = .error .MissingDestination ↔ data.length < 2)) ∧
    (∀ register < 16, ∀ b0 b1 : Byte, ∀ rest : List Byte,
      parse_destination register 1 (b0 :: b1 :: rest) =
        .ok (if register = 0 then .Symbolic (u16ToI16 (u16le b0 b1))
          else if register = 2 then .Absolute (u16le b0 b1)
          else .Indexed register (u16ToI16 (u16le b0 b1)))) ∧
    (∀ register ad : Nat, ∀ data : List Byte, 2 ≤ ad →
      parse_destination register ad data = .error (.InvalidDestination (ad, register))) ∧
    (∀ register < 16, ∀ ad < 2, ∀ data : List Byte, ∀ p : Nat × Nat,
      parse_destination register ad data ≠ .error (.InvalidDestination p)) := by
  refine ⟨?_, ?_, ?_, ?_, ?_⟩
  · intro register _ data
    rfl
  · intro register hr data
    rcases data with _ | ⟨b0, _ | ⟨b1, rest⟩⟩
    · simp [parse_destination]
    · simp [parse_destination]
    · simp only [parse_destination, List.length]
      split_ifs <;> simp
  · intro register hr b0 b1 rest
    simp only [parse_destination]
    split_ifs <;> first | rfl | omega
  · intro register ad data had
    rcases ad with _ | _ | ad
    · omega
    · omega
    · rfl
  · intro register hr ad ha data p
    interval_cases ad
    · simp [parse_destination]
    · rcases data with _ | ⟨b0, _ | ⟨b1, rest⟩⟩
      · simp [parse_destination]
      · simp [parse_destination]
      · simp only [parse_destination]
        split_ifs <;> first | (exfalso; omega) | simp

/-- Witness for claim C7 at concrete inputs. -/
theorem parse_destination_table_witness :
    parse_destination 9 0 [] = .ok (.RegisterDirect 9) ∧
    (parse_destination 9 1 [] = .error .MissingDestination ↔ ([] : List Byte).length < 2) ∧
    parse_destination 9 3 [] = .error (.InvalidDestination (3, 9)) :=
  ⟨parse_destination_table.1 9 (by decide) [],
   parse_destination_table.2.1 9 (by decide) [],
   parse_destination_table.2.2.2.1 9 3 [] (by decide)⟩

/-- Claim C10: every Indexed operand produced by parse_source has its
register in 1 or 4..15, every Indexed operand produced by
parse_destination has its register in 1 or 3..15, and the Indexed Display
arm (whose remaining branch is unreachable in the source, modelled as
none) renders every such register. -/
theorem indexed_register_ranges :
    (∀ register source : Nat, ∀ data : List Byte, ∀ op : Operand,
      ∀ rest : List Byte, ∀ r : Nat, ∀ i : Int,
      parse_source register source data = .ok (op, rest) → op = .Indexed r i →
      r = 1 ∨ (4 ≤ r ∧ r ≤ 15)) ∧
    (∀ register source : Nat, ∀ data : List Byte, ∀ op : Operand,
      ∀ r : Nat, ∀ i : Int,
      parse_destination register source data = .ok op → op = .Indexed r i →
      r = 1 ∨ (3 ≤ r ∧ r ≤ 15)) ∧
    (∀ r : Nat, ∀ i : Int, (r = 1 ∨ (3 ≤ r ∧ r ≤ 15)) →
      displayIndexed r i ≠ Option.none) := by
  refine ⟨?_, ?_, ?_⟩
  · intro register source data op rest r i h hop
    subst hop
    rcases source with _ | _ | _ | _ | source <;>
      simp only [parse_source] at h <;>
      (try split_ifs at h) <;>
      (try rcases data with _ | ⟨b0, _ | ⟨b1, rest2⟩⟩) <;>
      simp_all <;>
      omega
  · intro register source data op r i h hop
    subst hop
    rcases source with _ | _ | source <;>
      simp only [parse_destination] at h <;>
      (try rcases data with _ | ⟨b0, _ | ⟨b1, rest2⟩⟩) <;>
      (try split_ifs at h) <;>
      simp_all <;>
      omega
  · intro r i hr
    have hcases : r = 1 ∨ r = 3 ∨ (4 ≤ r ∧ r ≤ 15) := by
      rcases hr with rfl | ⟨ha, hb⟩
      · exact Or.inl rfl
      · rcases Nat.eq_or_lt_of_le ha with h | h
        · exact Or.inr (Or.inl h.symm)
        · exact Or.inr (Or.inr ⟨h, hb⟩)
    unfold displayIndexed
    rcases hcases with rfl | rfl | ⟨ha, hb⟩
    · simp
    · simp
    · rw [if_neg (by omega), if_neg (by omega), if_pos ⟨ha, hb⟩]
      simp

/-- Witness for claim C10 at a concrete input: parse_source yields an
Indexed operand with register 9 and the Display arm renders it. -/
theorem indexed_register_ranges_witness :
    (9 = 1 ∨ (4 ≤ 9 ∧ 9 ≤ 15)) ∧ displayIndexed 9 (-3) ≠ Option.none :=
  ⟨indexed_register_ranges.1 9 1 [(0xfd : Byte), (0xff : Byte)] (.Indexed 9 (-3)) []
      9 (-3) rfl rfl,
   indexed_register_ranges.2.2 9 (-3)
     (Or.inr ⟨by decide, by decide⟩)⟩

/-- Helper: the emulation recognizer always stores the candidate
two-operand instruction as the alias's original, so the alias size equals
the candidate's size (used by the size law below as well). -/
theorem emulate_preserves (opcode : Nat) (t : TwoOperandInstr) (a : Instruction)
    (h : emulateTwoOperand opcode t = Option.some a) :
    a.emulatedOriginal = Option.some t ∧ a.size = t.size := by
  unfold emulateTwoOperand at h
  split at h <;>
    (try simp only [emulateMov, emulateAdd, emulateAddc, emulateSubc, emulateSub,
      emulateCmp, emulateDadd, emulateBic, emulateBis, emulateXor] at h) <;>
    (try split_ifs at h) <;>
    first
      | (injection h with h
         subst h
         exact ⟨rfl, rfl⟩)
      | simp at h

/-- Claim C5: for every two-operand instruction on which the emulation
recognizer returns Some alias, the alias stores a copy of the instruction
as its original, and the alias size equals the instruction size. -/
theorem emulation_preserves_original_and_size (opcode : Nat)
    (t : TwoOperandInstr) (a : Instruction)
    (h : emulateTwoOperand opcode t = Option.some a) :
    a.emulatedOriginal = Option.some t ∧ a.size = t.size :=
  emulate_preserves opcode t a h

/-- Witness for claim C5: the Nop alias produced for mov #0, r3. -/
theorem emulation_preserves_original_and_size_witness :
    (Instruction.Nop ⟨Option.none, Option.none,
        ⟨.Constant 0, .Word, .RegisterDirect 3⟩⟩).emulatedOriginal =
      Option.some ⟨.Constant 0, .Word, .RegisterDirect 3⟩ ∧
    (Instruction.Nop ⟨Option.none, Option.none,
        ⟨.Constant 0, .Word, .RegisterDirect 3⟩⟩).size =
      TwoOperandInstr.size ⟨.Constant 0, .Word, .RegisterDirect 3⟩ :=
  emulation_preserves_original_and_size 4 ⟨.Constant 0, .Word, .RegisterDirect 3⟩
    (Instruction.Nop ⟨Option.none, Option.none,
      ⟨.Constant 0, .Word, .RegisterDirect 3⟩⟩) rfl

/-- The Mov emulation rows of the claim, checked in the listed order with
the first match winning: (Constant 0, r3) Nop; (Constant 0 or Immediate 0,
any register-direct destination) Clr; auto-increment of r1 with
destination r0 Ret, with any other destination Pop; destination r0 Br;
otherwise no alias. -/
def movEmulationRows (t : TwoOperandInstr) : Option Instruction :=
  if t.source = .Constant 0 ∧ t.destination = .RegisterDirect 3 then
    Option.some (.Nop ⟨Option.none, Option.none, t⟩)
  else if (t.source = .Constant 0 ∨ t.source = .Immediate 0) ∧
      t.destination.isRegisterDirect then
    Option.some (.Clr ⟨Option.some t.destination, Option.none, t⟩)
  else if t.source = .RegisterIndirectAutoIncrement 1 ∧
      t.destination = .RegisterDirect 0 then
    Option.some (.Ret ⟨Option.none, Option.none, t⟩)
  else if t.source = .RegisterIndirectAutoIncrement 1 then
    Option.some (.Pop ⟨Option.some t.destination, Option.some t.operand_width, t⟩)
  else if t.destination = .RegisterDirect 0 then
    Option.some (.Br ⟨Option.some t.source, Option.none, t⟩)
  else Option.none

/-- Claim C6: the Mov emulation checks its trigger rows in order with the
first match winning, and in particular mov r15, r15 (bytes 0x0f 0x4f) is
decoded as a plain Mov with no alias. -/
theorem mov_emulation_order :
    (∀ t : TwoOperandInstr, emulateMov t = movEmulationRows t) ∧
    emulateMov ⟨.RegisterDirect 15, .Word, .RegisterDirect 15⟩ = Option.none ∧
    decode [(0x0f : Byte), (0x4f : Byte)] =
      .ok (.Mov ⟨.RegisterDirect 15, .Word, .RegisterDirect 15⟩) := by
  refine ⟨?_, by rfl, by rfl⟩
  intro t
  unfold emulateMov movEmulationRows
  split_ifs <;> first | rfl | tauto

/-- Claim C2 is violated by the code (code bug): the decoder in
src/src/lib.rs panics on byte inputs instead of returning a typed
rejection.  The single-operand word 0x0020 (register 0, AS bits 2)
reaches the panic arm of the addressing-mode match, and the word 0x0010
(register 0, AS bits 1) with no extension word reaches an out-of-bounds
slice. -/
theorem decodeLib_panics :
    decodeLib [(0x20 : Byte), (0x00 : Byte)] 0 = .panicked "invalid addressing mode" ∧
    decodeLib [(0x10 : Byte), (0x00 : Byte)] 0 = .panicked "index out of range" := by
  exact ⟨rfl, rfl⟩

/-- Claim C8 is violated by the code (code bug): the word 0x1320 has top
three bits 000 and single-operand opcode field 6 (Reti), yet the lib.rs
decoder computes the addressing mode before dispatching on the opcode and
panics on the AS bits 2 / register 0 combination instead of producing
Reti; only words whose low bits happen to be benign, such as 0x1300,
produce the Reti record. -/
theorem decodeLib_reti_panics :
    ((0x1320 : Nat) &&& 0xE000 = 0 ∧ ((0x1320 : Nat) &&& 0x0380) >>> 7 = 6) ∧
    decodeLib [(0x20 : Byte), (0x13 : Byte)] 0 = .panicked "invalid addressing mode" ∧
    decodeLib [(0x00 : Byte), (0x13 : Byte)] 0 =
      .some (.SingleOperand ⟨6, 0, Option.none⟩) := by
  exact ⟨⟨rfl, rfl⟩, rfl, rfl⟩

/-- Counterexample to claim C9: the textual form of Immediate(0x8000) is
not the unsigned rendering with a leading hash; the Display arm
reinterprets values with bit 15 set as negative i16 and prints a minus
sign. -/
theorem display_immediate_counterexample :
    displayImmediate 0x8000 = "#-0x8000" ∧ "#-0x8000" ≠ "#0x8000" := by
  exact ⟨rfl, by decide⟩

/-- Characterization of bit 15 for 16-bit values. -/
theorem and_bit15_eq_zero_iff (u : Nat) (hu : u < 65536) :
    u &&& 0x8000 = 0 ↔ u < 32768 := by
  have h := Nat.and_two_pow u 15
  have ht : u.testBit 15 = decide (u / 2 ^ 15 % 2 = 1) := Nat.testBit_to_div_mod
  cases hb : u.testBit 15
  · rw [hb] at h ht
    norm_num at h ht
    rw [h]
    omega
  · rw [hb] at h ht
    norm_num at h ht
    rw [h]
    omega

/-- Claim C9 amended: for every 16-bit value, Immediate prints as a hash
followed by the unsigned hex rendering when bit 15 is clear, and as a
hash and minus sign followed by the same unsigned hex digit string of the
value when bit 15 is set (the i16 reinterpretation formats its
two's-complement bit pattern, which coincides with the unsigned
digits). -/
theorem display_immediate_amended (u : Nat) (hu : u < 65536) :
    displayImmediate u =
      (if u &&& 0x8000 = 0 then "#" else "#-") ++ natLowerHex u := by
  unfold displayImmediate
  by_cases h : u &&& 0x8000 = 0
  · rw [if_pos h, if_pos h]
  · rw [if_neg h, if_neg h]
    have hlt : ¬ u < 32768 := by
      intro hc
      exact h ((and_bit15_eq_zero_iff u hu).2 hc)
    unfold u16ToI16 i16LowerHex
    rw [if_neg hlt]
    have hmod : ((u : Int) - 65536) % 65536 = (u : Int) := by omega
    rw [hmod]
    simp [natLowerHex]

/-- Witness for claim C9 amended, at the counterexample input and at a
small positive input. -/
theorem display_immediate_amended_witness :
    displayImmediate 32768 =
      (if 32768 &&& 0x8000 = 0 then "#" else "#-") ++ natLowerHex 32768 ∧
    displayImmediate 2 =
      (if 2 &&& 0x8000 = 0 then "#" else "#-") ++ natLowerHex 2 :=
  ⟨display_immediate_amended 32768 (by decide),
   display_immediate_amended 2 (by decide)⟩

/-- Counterexample to claim C3: the jump word 0x23FF has bit 9 of its
offset field set, yet the decoded offset is 0, which is not negative, so
the offset is not negative exactly when bit 9 is set. -/
theorem jump_offset_sign_counterexample :
    (0x23FF : Nat) &&& 0x200 ≠ 0 ∧
    decode [(0xff : Byte), (0x23 : Byte)] = .ok (.Jnz 0) ∧
    ¬ jxx_fix_offset ((0x23FF : Nat) &&& 0x3FF) < 0 := by
  refine ⟨by decide, by rfl, by decide⟩

/-- Helper: xor with the all-ones 16-bit mask followed by the 10-bit mask
is the 10-bit complement. -/
theorem xor_mask_low (n : Nat) (h : n < 1024) :
    (n ^^^ 0xFFFF) &&& 0x3FF = 1023 - n := by
  apply Nat.eq_of_testBit_eq
  intro i
  have h1 : (0xFFFF : Nat) = 2 ^ 16 - 1 := by norm_num
  have h2 : (0x3FF : Nat) = 2 ^ 10 - 1 := by norm_num
  have h3 : 2 ^ 10 - 1 - n = 2 ^ 10 - (n + 1) := by omega
  rw [Nat.testBit_and, Nat.testBit_xor, h1, h2, h3,
    Nat.testBit_two_pow_sub_one, Nat.testBit_two_pow_sub_one,
    Nat.testBit_two_pow_sub_succ (by omega : n < 2 ^ 10)]
  by_cases hi : i < 10
  · have hi16 : i < 16 := by omega
    simp [hi, hi16]
  · simp [hi]

/-- Helper: bit 9 characterization of a 10-bit value. -/
theorem and_bit9_eq_zero_iff (n : Nat) (h : n < 1024) :
    n &&& 512 = 0 ↔ n < 512 := by
  have hp := Nat.and_two_pow n 9
  have ht : n.testBit 9 = decide (n / 2 ^ 9 % 2 = 1) := Nat.testBit_to_div_mod
  cases hb : n.testBit 9
  · rw [hb] at hp ht
    norm_num at hp ht
    rw [hp]
    omega
  · rw [hb] at hp ht
    norm_num at hp ht
    rw [hp]
    omega

/-- Helper: pointwise content of the one's-complement offset fix over the
10-bit offset range. -/
theorem jxx_fix_offset_key : ∀ raw < 1024,
    (jxx_fix_offset raw =
      if raw &&& 512 ≠ 0 then -((((raw ^^^ 0xFFFF) &&& 0x3FF : Nat) : Int))
      else (raw : Int)) ∧
    (jxx_fix_offset raw < 0 ↔ raw &&& 512 ≠ 0 ∧ raw ≠ 1023) := by
  intro raw hraw
  have hcomp : (raw ^^^ 0xFFFF) &&& 0x3FF = 1023 - raw := xor_mask_low raw hraw
  have hbit := and_bit9_eq_zero_iff raw hraw
  have hand : (0x3FF : Nat) &&& (raw ^^^ 0xFFFF) = (raw ^^^ 0xFFFF) &&& 0x3FF :=
    Nat.and_comm _ _
  unfold jxx_fix_offset u16ToI16
  rw [hand, hcomp]
  by_cases hb : raw &&& 512 = 0
  · rw [if_neg (by omega : ¬ 0 < raw &&& 512), if_neg (by omega : ¬ raw &&& 512 ≠ 0),
      if_pos (by omega : raw < 32768)]
    refine ⟨rfl, ?_⟩
    constructor
    · intro hneg
      exfalso
      omega
    · rintro ⟨hc, -⟩
      exact absurd hb hc
  · rw [if_pos (by omega : 0 < raw &&& 512), if_pos hb,
      if_pos (by omega : 1023 - raw < 32768)]
    constructor
    · rw [neg_one_mul]
    · constructor
      · intro hneg
        exact ⟨hb, by omega⟩
      · rintro ⟨-, hne⟩
        omega

/-- Helper: every condition value 0..7 wraps the given offset in a jump
variant, whose stored offset is the given one and whose size is 2. -/
theorem mkJump_ok (c : Nat) (hc : c ≤ 7) (off : Int) :
    ∃ inst, mkJump c off = .ok inst ∧ inst.jumpOffset = Option.some off ∧
      Instruction.size inst = 2 := by
  interval_cases c <;> exact ⟨_, rfl, rfl, rfl⟩

/-- Helper: on a jump-form first word the decoder reduces to mkJump with
the fixed offset. -/
theorem decode_jump (b0 b1 : Byte) (tail : List Byte)
    (hw : u16le b0 b1 &&& 0xE000 = 0x2000) :
    decode (b0 :: b1 :: tail) =
      mkJump ((u16le b0 b1 >>> 10) &&& 7)
        (jxx_fix_offset (u16le b0 b1 &&& 0x3FF)) := by
  have h0 : ¬ (u16le b0 b1 &&& 0xE000 = 0) := by rw [hw]; decide
  unfold decode
  simp [h0, hw]

/-- Claim C3 amended: for every conditional-jump instruction word, the
decoded offset equals the source formula (negated masked complement when
bit 9 of the offset field is set, the raw offset otherwise); the offset is
negative exactly when bit 9 is set and the offset field is not 0x3FF (the
all-ones field maps to 0 under the one's-complement fix). -/
theorem jump_offset_amended (w : Nat) (hw : w &&& 0xE000 = 0x2000) :
    (∀ (b0 b1 : Byte) (tail : List Byte), u16le b0 b1 = w →
      ∃ inst, decode (b0 :: b1 :: tail) = .ok inst ∧
        inst.jumpOffset = Option.some (jxx_fix_offset (w &&& 0x3FF))) ∧
    (jxx_fix_offset (w &&& 0x3FF) =
      if w &&& 0x200 ≠ 0 then -((((w &&& 0x3FF) ^^^ 0xFFFF) &&& 0x3FF : Nat) : Int)
      else ((w &&& 0x3FF : Nat) : Int)) ∧
    (jxx_fix_offset (w &&& 0x3FF) < 0 ↔ (w &&& 0x200 ≠ 0 ∧ w &&& 0x3FF ≠ 0x3FF)) := by
  have hraw : w &&& 0x3FF < 1024 := Nat.lt_succ_of_le Nat.and_le_right
  have hbit : (w &&& 0x3FF) &&& 512 = w &&& 512 := by
    rw [Nat.and_assoc]
    rfl
  have key := jxx_fix_offset_key (w &&& 0x3FF) hraw
  refine ⟨?_, ?_, ?_⟩
  · intro b0 b1 tail hword
    subst hword
    rw [decode_jump b0 b1 tail hw]
    obtain ⟨inst, h1, h2, _⟩ := mkJump_ok ((u16le b0 b1 >>> 10) &&& 7)
      Nat.and_le_right (jxx_fix_offset (u16le b0 b1 &&& 0x3FF))
    exact ⟨inst, h1, h2⟩
  · rw [key.1, hbit]
  · rw [key.2, hbit]

/-- Witness for claim C3 amended at the jump word 0x23F9 (the repository's
own negative-offset test vector). -/
theorem jump_offset_amended_witness :
    jxx_fix_offset ((0x23F9 : Nat) &&& 0x3FF) < 0 ↔
      ((0x23F9 : Nat) &&& 0x200 ≠ 0 ∧ (0x23F9 : Nat) &&& 0x3FF ≠ 0x3FF) :=
  (jump_offset_amended 0x23F9 (by decide)).2.2

/-- Helper: parse_source consumes exactly its operand's extension size,
which is 0 or 2 bytes. -/
theorem parse_source_consumes (register source : Nat) (data : List Byte)
    (op : Operand) (rest : List Byte)
    (h : parse_source register source data = .ok (op, rest)) :
    op.size + rest.length = data.length ∧ (op.size = 0 ∨ op.size = 2) := by
  rcases source with _ | _ | _ | _ | source <;>
    simp only [parse_source] at h <;>
    (try split_ifs at h) <;>
    (try rcases data with _ | ⟨b0, _ | ⟨b1, rest2⟩⟩)
  all_goals
    first
      | (exfalso; exact Except.noConfusion h)
      | (simp only [Except.ok.injEq, Prod.mk.injEq] at h
         obtain ⟨rfl, rfl⟩ := h
         simp [Operand.size] <;> omega)

/-- Helper: a successful parse_destination needs at most its operand's
extension size, which is 0 or 2 bytes. -/
theorem parse_destination_consumes (register source : Nat) (data : List Byte)
    (op : Operand) (h : parse_destination register source data = .ok op) :
    op.size ≤ data.length ∧ (op.size = 0 ∨ op.size = 2) := by
  rcases source with _ | _ | source <;>
    simp only [parse_destination] at h <;>
    (try rcases data with _ | ⟨b0, _ | ⟨b1, rest2⟩⟩) <;>
    (try split_ifs at h)
  all_goals
    first
      | (exfalso; exact Except.noConfusion h)
      | (simp only [Except.ok.injEq] at h
         subst h
         simp [Operand.size])

/-- Helper: every successfully wrapped two-operand instruction has the
record's size. -/
theorem mkTwoOperand_size (opcode : Nat) (t : TwoOperandInstr)
    (inst : Instruction) (h : mkTwoOperand opcode t = .ok inst) :
    inst.size = t.size := by
  unfold mkTwoOperand at h
  split at h <;>
    first
      | (exfalso; exact Except.noConfusion h)
      | (simp only [Except.ok.injEq] at h; subst h; rfl)

/-- Helper: every successfully built jump has size 2. -/
theorem mkJump_size (c : Nat) (off : Int) (inst : Instruction)
    (h : mkJump c off = .ok inst) : inst.size = 2 := by
  unfold mkJump at h
  split at h <;>
    first
      | (exfalso; exact Except.noConfusion h)
      | (simp only [Except.ok.injEq] at h; subst h; rfl)

/-- Claim C4: an operand's size is exactly 2 when its addressing mode
needs an extension word (Indexed, Symbolic, Immediate, Absolute) and 0
otherwise; an instruction's size is 2 plus its operands' sizes (source
and destination for two-operand, source only for single-operand other
than Reti, none for Reti and jumps); and every successful decode returns
an instruction whose size is 2, 4 or 6 and at most the input length. -/
theorem size_law :
    ((∀ r, (Operand.RegisterDirect r).size = 0) ∧
     (∀ r i, (Operand.Indexed r i).size = 2) ∧
     (∀ r, (Operand.RegisterIndirect r).size = 0) ∧
     (∀ r, (Operand.RegisterIndirectAutoIncrement r).size = 0) ∧
     (∀ i, (Operand.Symbolic i).size = 2) ∧
     (∀ u, (Operand.Immediate u).size = 2) ∧
     (∀ u, (Operand.Absolute u).size = 2) ∧
     (∀ i, (Operand.Constant i).size = 0)) ∧
    (∀ t : TwoOperandInstr, t.size = 2 + t.source.size + t.destination.size) ∧
    ((∀ s ow, (Instruction.Rrc s ow).size = 2 + s.size) ∧
     (∀ s, (Instruction.Swpb s).size = 2 + s.size) ∧
     (∀ s ow, (Instruction.Rra s ow).size = 2 + s.size) ∧
     (∀ s, (Instruction.Sxt s).size = 2 + s.size) ∧
     (∀ s ow, (Instruction.Push s ow).size = 2 + s.size) ∧
     (∀ s, (Instruction.Call s).size = 2 + s.size) ∧
     Instruction.Reti.size = 2 ∧
     (∀ o, (Instruction.Jnz o).size = 2) ∧
     (∀ o, (Instruction.Jmp o).size = 2)) ∧
    (∀ (data : List Byte) (inst : Instruction), decode data = .ok inst →
      (inst.size = 2 ∨ inst.size = 4 ∨ inst.size = 6) ∧ inst.size ≤ data.length) := by
  refine ⟨⟨fun _ => rfl, fun _ _ => rfl, fun _ => rfl, fun _ => rfl,
    fun _ => rfl, fun _ => rfl, fun _ => rfl, fun _ => rfl⟩,
    fun _ => rfl,
    ⟨fun _ _ => rfl, fun _ => rfl, fun _ _ => rfl, fun _ => rfl,
     fun _ _ => rfl, fun _ => rfl, rfl, fun _ => rfl, fun _ => rfl⟩, ?_⟩
  intro data inst h
  rcases data with _ | ⟨b0, _ | ⟨b1, tail⟩⟩
  · simp [decode] at h
  · simp [decode] at h
  · simp only [decode] at h
    split_ifs at h with h1 h2 h3
    · -- single-operand form, opcode 6: Reti
      simp only [Except.ok.injEq] at h
      subst h
      refine ⟨Or.inl rfl, ?_⟩
      show 2 ≤ (b0 :: b1 :: tail).length
      simp only [List.length_cons]
      omega
    · -- single-operand form, other opcodes
      split at h
      · exact Except.noConfusion h
      · rename_i src rest heq
        obtain ⟨hlen, hsz⟩ := parse_source_consumes _ _ _ _ _ heq
        split at h <;>
          first
            | (exfalso; exact Except.noConfusion h)
            | (simp only [Except.ok.injEq] at h
               subst h
               refine ⟨?_, ?_⟩
               · show 2 + src.size = 2 ∨ 2 + src.size = 4 ∨ 2 + src.size = 6
                 omega
               · show 2 + src.size ≤ (b0 :: b1 :: tail).length
                 simp only [List.length_cons]
                 omega)
    · -- jump form
      have hsize := mkJump_size _ _ _ h
      rw [hsize]
      refine ⟨Or.inl rfl, ?_⟩
      simp only [List.length_cons]
      omega
    · -- two-operand form
      split at h
      · exact Except.noConfusion h
      · rename_i src tail2 heqs
        obtain ⟨hlen, hssz⟩ := parse_source_consumes _ _ _ _ _ heqs
        split at h
        · exact Except.noConfusion h
        · rename_i dst heqd
          obtain ⟨hdlen, hdsz⟩ := parse_destination_consumes _ _ _ _ heqd
          split at h
          · exact Except.noConfusion h
          · rename_i inst0 heqm
            have hinst0 := mkTwoOperand_size _ _ _ heqm
            simp only [Except.ok.injEq] at h
            rcases hemu : emulateTwoOperand ((u16le b0 b1 >>> 12) &&& 15)
                ⟨src, OperandWidth.ofBit ((u16le b0 b1 >>> 6) &&& 1), dst⟩ with _ | a
            · rw [hemu] at h
              simp only [Option.getD_none] at h
              subst h
              rw [hinst0]
              have ht : TwoOperandInstr.size
                  ⟨src, OperandWidth.ofBit ((u16le b0 b1 >>> 6) &&& 1), dst⟩ =
                  2 + src.size + dst.size := rfl
              rw [ht]
              refine ⟨?_, ?_⟩
              · omega
              · simp only [List.length_cons]
                omega
            · rw [hemu] at h
              simp only [Option.getD_some] at h
              subst h
              obtain ⟨_, hasz⟩ := emulate_preserves _ _ _ hemu
              rw [hasz]
              have ht : TwoOperandInstr.size
                  ⟨src, OperandWidth.ofBit ((u16le b0 b1 >>> 6) &&& 1), dst⟩ =
                  2 + src.size + dst.size := rfl
              rw [ht]
              refine ⟨?_, ?_⟩
              · omega
              · simp only [List.length_cons]
                omega

/-- Witness for claim C4 at concrete decodes of sizes 2 and 4. -/
theorem size_law_witness :
    ((Instruction.Reti.size = 2 ∨ Instruction.Reti.size = 4 ∨ Instruction.Reti.size = 6) ∧
      Instruction.Reti.size ≤ ([(0x00 : Byte), (0x13 : Byte)] : List Byte).length) ∧
    (((Instruction.Push (.Absolute 0x4400) .Word).size = 2 ∨
        (Instruction.Push (.Absolute 0x4400) .Word).size = 4 ∨
        (Instruction.Push (.Absolute 0x4400) .Word).size = 6) ∧
      (Instruction.Push (.Absolute 0x4400) .Word).size ≤
        ([(0x12 : Byte), (0x12 : Byte), (0x00 : Byte), (0x44 : Byte)] : List Byte).length) :=
  ⟨size_law.2.2.2 [(0x00 : Byte), (0x13 : Byte)] Instruction.Reti rfl,
   size_law.2.2.2 [(0x12 : Byte), (0x12 : Byte), (0x00 : Byte), (0x44 : Byte)]
     (Instruction.Push (.Absolute 0x4400) .Word) rfl⟩

end MSP430
